import Mathlib

/-!
Verification development for the patient-assessment pipeline
(`src/assessment.js`): a shallow embedding of the field parsers, the risk
scorer, the classifier (`analyze`), the per-page fetch/retry loop
(`fetchAndStorePage`) and the two-pass collection orchestrator
(`fetchPatients`), together with theorems settling the specified
properties.

Conventions of the embedding:
* JavaScript field values are modelled by `RawVal`; JSON cannot carry
  `NaN`/`Infinity`, so `RawVal.num` carries a rational.  `NaN` produced by
  parsing is modelled as `Option.none`; `parseFloat` may still produce
  infinities from the string "Infinity", hence `JSFloat`.
* `parseFloat`/`parseInt` are modelled on the character list of the string
  (leading-whitespace trim, optional sign, longest numeric-literal
  prefix, `parseInt` radix-16 on a `0x` lead).  Number inputs round-trip
  through `ToString`, which is the identity for `parseFloat` and
  truncation toward zero for `parseInt`; the exotic exponent rendering of
  numbers at or above 1e21 is outside the model.
* Global mutable accumulators of the script are threaded as explicit
  state; timing (backoff delays) is not modelled, only attempt counting.
-/

/-- A JavaScript value as it can appear in a patient-record field. -/
inductive RawVal where
  | str (s : String)
  | num (q : ℚ)
  | nullV
  | undef
  | boolV (b : Bool)
  | obj
deriving DecidableEq, Repr

/-- JavaScript truthiness of a `RawVal` (the `!bp` and `p.patient_id`
checks of the source). -/
def truthy : RawVal → Bool
  | .str s => !s.data.isEmpty
  | .num q => decide (q ≠ 0)
  | .nullV => false
  | .undef => false
  | .boolV b => b
  | .obj => true

/-- JavaScript whitespace stripped by `parseFloat`/`parseInt`. -/
def isJsWs (c : Char) : Bool :=
  c = ' ' || c = '\t' || c = '\n' || c = '\r'

/-- Longest leading run of decimal digits, with the remaining characters. -/
def takeDigits : List Char → List Char × List Char
  | [] => ([], [])
  | c :: cs =>
    if c.isDigit then
      let r := takeDigits cs
      (c :: r.1, r.2)
    else ([], c :: cs)

/-- Numeric value of a decimal digit list (most significant first). -/
def digitsVal (cs : List Char) : Nat :=
  cs.foldl (fun n c => 10 * n + (c.toNat - 48)) 0

/-- Optional leading sign; returns (isNegative, rest). -/
def takeSign (cs : List Char) : Bool × List Char :=
  if cs.head? = some '+' then (false, cs.tail)
  else if cs.head? = some '-' then (true, cs.tail)
  else (false, cs)

/-- A finite or infinite JavaScript number (`NaN` is modelled as
`Option.none` around this type). -/
inductive JSFloat where
  | finite (q : ℚ)
  | posInf
  | negInf
deriving DecidableEq, Repr

/-- Comparison `x >= q` of a JavaScript number against a rational bound. -/
def JSFloat.geQ : JSFloat → ℚ → Bool
  | .finite x, q => decide (q ≤ x)
  | .posInf, _ => true
  | .negInf, _ => false

/-- Comparison `x <= q` of a JavaScript number against a rational bound. -/
def JSFloat.leQ : JSFloat → ℚ → Bool
  | .finite x, q => decide (x ≤ q)
  | .posInf, _ => false
  | .negInf, _ => true

/-- Does the character list start with the literal `Infinity`? -/
def isInfinityLit (cs : List Char) : Bool :=
  decide (cs.take 8 = ['I', 'n', 'f', 'i', 'n', 'i', 't', 'y'])

/-- Exponent part after `e`/`E` in a float literal: optional sign and
digits; an exponent without digits is not consumed (contributes 0). -/
def expVal (cs : List Char) : Int :=
  let sr := takeSign cs
  let ds := takeDigits sr.2
  if ds.1.isEmpty then 0
  else if sr.1 then -(digitsVal ds.1 : Int) else (digitsVal ds.1 : Int)

/-- JavaScript `parseFloat` on the characters of a string: trim leading
whitespace, optional sign, then the longest prefix that is `Infinity` or
a decimal literal `digits [. digits] [e digits]` with at least one
mantissa digit; `none` models `NaN`. -/
def parseFloatChars (cs0 : List Char) : Option JSFloat :=
  let cs := cs0.dropWhile isJsWs
  let sr := takeSign cs
  if isInfinityLit sr.2 then
    some (if sr.1 then .negInf else .posInf)
  else
    let ip := takeDigits sr.2
    let fr : List Char × List Char :=
      if ip.2.head? = some '.' then takeDigits ip.2.tail else ([], ip.2)
    if ip.1.isEmpty && fr.1.isEmpty then none
    else
      let mantissa : ℚ :=
        (digitsVal ip.1 : ℚ) + (digitsVal fr.1 : ℚ) / (10 : ℚ) ^ fr.1.length
      let e : Int :=
        if fr.2.head? = some 'e' ∨ fr.2.head? = some 'E' then expVal fr.2.tail
        else 0
      let mag : ℚ := mantissa * (10 : ℚ) ^ e
      some (.finite (if sr.1 then -mag else mag))

/-- JavaScript `parseFloat` applied to a field value: strings are parsed,
numbers round-trip to themselves, and `null`, `undefined`, booleans and
plain objects stringify to non-numeric text, hence `NaN` (`none`). -/
def parseFloatJS : RawVal → Option JSFloat
  | .str s => parseFloatChars s.data
  | .num q => some (.finite q)
  | _ => none

/-- Is a `0x`/`0X` hex lead present (after sign), per `parseInt`? -/
def hexLead (cs : List Char) : Bool :=
  decide (cs.take 2 = ['0', 'x']) || decide (cs.take 2 = ['0', 'X'])

/-- Longest leading run of hexadecimal digits. -/
def takeHexDigits : List Char → List Char × List Char
  | [] => ([], [])
  | c :: cs =>
    if c.isDigit || ('a' ≤ c && c ≤ 'f') || ('A' ≤ c && c ≤ 'F') then
      let r := takeHexDigits cs
      (c :: r.1, r.2)
    else ([], c :: cs)

/-- Numeric value of one hexadecimal digit. -/
def hexDigitVal (c : Char) : Nat :=
  if c.isDigit then c.toNat - 48
  else if 'a' ≤ c && c ≤ 'f' then c.toNat - 87
  else c.toNat - 55

/-- Numeric value of a hexadecimal digit list. -/
def hexVal (cs : List Char) : Nat :=
  cs.foldl (fun n c => 16 * n + hexDigitVal c) 0

/-- JavaScript `parseInt` on the characters of a string: trim leading
whitespace, optional sign, then either a `0x` hex literal or the longest
run of decimal digits; no digits means `NaN` (`none`). -/
def parseIntChars (cs0 : List Char) : Option Int :=
  let cs := cs0.dropWhile isJsWs
  let sr := takeSign cs
  let natPart : Option Nat :=
    if hexLead sr.2 then
      let hs := takeHexDigits (sr.2.drop 2)
      if hs.1.isEmpty then none else some (hexVal hs.1)
    else
      let ds := takeDigits sr.2
      if ds.1.isEmpty then none else some (digitsVal ds.1)
  natPart.map (fun n => if sr.1 then -(n : Int) else (n : Int))

/-- JavaScript `parseInt` applied to a field value: strings are parsed;
numbers stringify and re-parse, which truncates toward zero; all other
values stringify to non-numeric text, hence `NaN` (`none`). -/
def parseIntJS : RawVal → Option Int
  | .str s => parseIntChars s.data
  | .num q => some (if 0 ≤ q then ⌊q⌋ else ⌈q⌉)
  | _ => none

/-- The temperature field parser of the pipeline: the `parseFloat` call of
`analyze` (line 144); `tempScore` re-applies `parseFloat` to its result,
which is the identity on numbers and `NaN`. -/
def parseTemperature (raw : RawVal) : Option JSFloat := parseFloatJS raw

/-- The age field parser of the pipeline: the `parseInt` call of `analyze`
(line 145); `ageScore` re-applies `parseInt` to its result, which is the
identity on integers and `NaN`. -/
def parseAge (raw : RawVal) : Option Int := parseIntJS raw

/-- JavaScript `String.prototype.split('/')` on a character list. -/
def splitSlash : List Char → List (List Char)
  | [] => [[]]
  | c :: cs =>
    if c = '/' then [] :: splitSlash cs
    else
      match splitSlash cs with
      | [] => [[c]]
      | p :: ps => (c :: p) :: ps

/-- One side of the blood-pressure string: `/^\d+$/.test(s) ? parseInt(s)
: null` from the source. -/
def digitTest (cs : List Char) : Option Nat :=
  if cs.isEmpty then none
  else if cs.all Char.isDigit then some (digitsVal cs)
  else none

/-- `parseBloodPressure` from the source: a falsy or non-string or
slash-free value yields `(null, null)`; otherwise the string is split on
`/` and the first two segments are tested as pure digit runs,
independently. -/
def parseBloodPressure (bp : RawVal) : Option Nat × Option Nat :=
  match bp with
  | .str s =>
    let cs := s.data
    if cs.isEmpty then (none, none)
    else if !(cs.contains '/') then (none, none)
    else
      let parts := splitSlash cs
      (digitTest (parts.getD 0 []), digitTest (parts.getD 1 []))
  | _ => (none, none)

/-- `bpScore` from the source; `none` models the `null` sentinel of a
failed parse. -/
def bpScore (systolic diastolic : Option Nat) : Nat :=
  match systolic, diastolic with
  | some s, some d =>
    if s < 120 ∧ d < 80 then 1
    else if s ≥ 120 ∧ s ≤ 129 ∧ d < 80 then 2
    else if (s ≥ 130 ∧ s ≤ 139) ∨ (d ≥ 80 ∧ d ≤ 89) then 3
    else if s ≥ 140 ∨ d ≥ 90 then 4
    else 0
  | _, _ => 0

/-- `tempScore` from the source, applied to the already-parsed temperature
(`parseFloat` is idempotent, so the re-parse inside `tempScore` is the
identity); `none` models `NaN`. -/
def tempScore (t : Option JSFloat) : Nat :=
  match t with
  | none => 0
  | some v =>
    if v.leQ 99.5 then 0
    else if v.geQ 99.6 && v.leQ 100.9 then 1
    else if v.geQ 101.0 then 2
    else 0

/-- `ageScore` from the source, applied to the already-parsed age
(`parseInt` is idempotent on its own output); `none` models `NaN`. -/
def ageScore (a : Option Int) : Nat :=
  match a with
  | none => 0
  | some x =>
    if x < 40 then 1
    else if x ≤ 65 then 1
    else if x > 65 then 2
    else 0

/-- The blood-pressure table exactly as written in the specification
(section 4.2), evaluated top-to-bottom with first match winning. -/
def bpSpecTable (s d : Nat) : Nat :=
  if s < 120 ∧ d < 80 then 1
  else if 120 ≤ s ∧ s ≤ 129 ∧ d < 80 then 2
  else if (130 ≤ s ∧ s ≤ 139) ∨ (80 ≤ d ∧ d ≤ 89) then 3
  else if 140 ≤ s ∨ 90 ≤ d then 4
  else 0

/-- Value of a side of a blood-pressure string as the specification words
it: the integer value of a pure digit sequence, invalid otherwise. -/
def digitSeqVal (cs : List Char) : Option Nat :=
  if cs ≠ [] ∧ ∀ c ∈ cs, c.isDigit = true then some (digitsVal cs) else none

/-- A patient record as `analyze` reads it: the identifier plus the three
vitals fields, each an arbitrary JavaScript value (a missing field is
`undef`).  The record is otherwise opaque to the pipeline. -/
structure Patient where
  patient_id : RawVal
  blood_pressure : RawVal
  temperature : RawVal
  age : RawVal
deriving DecidableEq, Repr

/-- The three accumulator lists (`highRisk`, `feverPatients`,
`dataIssues`) of the script, threaded as explicit state. -/
structure Report where
  highRisk : List RawVal
  feverPatients : List RawVal
  dataIssues : List RawVal
deriving DecidableEq, Repr

/-- Parsed systolic value of a record (`analyze`, line 143). -/
def sysOf (p : Patient) : Option Nat := (parseBloodPressure p.blood_pressure).1

/-- Parsed diastolic value of a record (`analyze`, line 143). -/
def diaOf (p : Patient) : Option Nat := (parseBloodPressure p.blood_pressure).2

/-- Parsed temperature of a record (`analyze`, line 144). -/
def tOf (p : Patient) : Option JSFloat := parseTemperature p.temperature

/-- Parsed age of a record (`analyze`, line 145). -/
def aOf (p : Patient) : Option Int := parseAge p.age

/-- The `hasIssue` test of `analyze`: some parsed field is the sentinel. -/
def hasIssue (p : Patient) : Bool :=
  (sysOf p).isNone || (diaOf p).isNone || (tOf p).isNone || (aOf p).isNone

/-- The total risk score of `analyze`: sum of the three sub-scores. -/
def totalOf (p : Patient) : Nat :=
  bpScore (sysOf p) (diaOf p) + tempScore (tOf p) + ageScore (aOf p)

/-- The fever test of `analyze`: `!isNaN(t) && t >= 99.6`. -/
def isFever (p : Patient) : Bool :=
  match tOf p with
  | some v => v.geQ 99.6
  | none => false

/-- One iteration of the `patients.forEach` body of `analyze`: push the
record identifier onto each list whose condition holds. -/
def analyzeStep (r : Report) (p : Patient) : Report :=
  let r1 : Report :=
    if hasIssue p then { r with dataIssues := r.dataIssues ++ [p.patient_id] } else r
  let r2 : Report :=
    if 4 ≤ totalOf p then { r1 with highRisk := r1.highRisk ++ [p.patient_id] } else r1
  if isFever p then { r2 with feverPatients := r2.feverPatients ++ [p.patient_id] } else r2

/-- `analyze` from the source, starting from the empty accumulators of a
fresh run. -/
def analyze (ps : List Patient) : Report :=
  ps.foldl analyzeStep ⟨[], [], []⟩

/-- Outcome of one attempt of the page fetch, after response-shape
normalization: a success response carrying the normalized record list, a
429 rate limit, a 500/503 server error, or any other error. -/
inductive AttemptOut where
  | ok (recs : List Patient)
  | rate429
  | err5xx
  | fatal
deriving DecidableEq, Repr

/-- `patients.filter(p => p && p.patient_id)` from `fetchAndStorePage`
(records are objects, hence themselves truthy). -/
def validOf (recs : List Patient) : List Patient :=
  recs.filter (fun p => truthy p.patient_id)

/-- Does the catch block of `fetchAndStorePage` retry this outcome?  Rate
limits and 500/503 retry; a success whose valid-record list is empty
throws the `no valid` error, which the catch block also retries; any
other error aborts. -/
def retryable : AttemptOut → Bool
  | .ok recs => (validOf recs).isEmpty
  | .rate429 => true
  | .err5xx => true
  | .fatal => false

/-- The `while (retries < maxRetries)` loop of `fetchAndStorePage`:
`resp` gives the remote's outcome for each attempt index, `attempt` is
the number of attempts already made, and the second argument is the
remaining budget.  Returns the extracted valid records (or `none` on
definitive failure) together with the total number of attempts made. -/
def fetchPageGo (resp : Nat → AttemptOut) : Nat → Nat → Option (List Patient) × Nat
  | attempt, 0 => (none, attempt)
  | attempt, rem + 1 =>
    match resp attempt with
    | .ok recs =>
      let valid := validOf recs
      if valid.isEmpty then fetchPageGo resp (attempt + 1) rem
      else (some valid, attempt + 1)
    | .rate429 => fetchPageGo resp (attempt + 1) rem
    | .err5xx => fetchPageGo resp (attempt + 1) rem
    | .fatal => (none, attempt + 1)

/-- `fetchAndStorePage` for one page: run the retry loop from zero
attempts with the given budget. -/
def fetchPage (resp : Nat → AttemptOut) (budget : Nat) : Option (List Patient) × Nat :=
  fetchPageGo resp 0 budget

/-- The default retry budget of `fetchAndStorePage` (`maxRetries = 5`). -/
def firstBudget : Nat := 5

/-- The larger budget of the recovery pass (`fetchAndStorePage(page,
allPatients, 8)`). -/
def recoveryBudget : Nat := 8

/-- `totalPages = 10` from `fetchPatients`. -/
def totalPages : Nat := 10

/-- The page indices 1..10 swept by the first pass. -/
def pagesList : List Nat := (List.range totalPages).map (· + 1)

/-- One first-pass iteration of `fetchPatients`: append the page's records
on success, record the page index as failed otherwise. -/
def firstStep (env1 : Nat → Nat → AttemptOut) (st : List Patient × List Nat)
    (page : Nat) : List Patient × List Nat :=
  match (fetchPage (env1 page) firstBudget).1 with
  | some recs => (st.1 ++ recs, st.2)
  | none => (st.1, st.2 ++ [page])

/-- One recovery-pass iteration of `fetchPatients`: append the page's
records on success, leave the accumulator unchanged on permanent
failure. -/
def recoveryStep (env2 : Nat → Nat → AttemptOut) (acc : List Patient)
    (page : Nat) : List Patient :=
  match (fetchPage (env2 page) recoveryBudget).1 with
  | some recs => acc ++ recs
  | none => acc

/-- `fetchPatients` from the source: sweep pages 1..10 with the baseline
budget, then re-attempt the failed pages in their original order with
budget 8.  `env1 page` and `env2 page` give the remote's per-attempt
outcomes for that page during the first and the recovery pass. -/
def fetchPatients (env1 env2 : Nat → Nat → AttemptOut) : List Patient :=
  let st := pagesList.foldl (firstStep env1) ([], [])
  st.2.foldl (recoveryStep env2) st.1

/-- The body of the `POST /submit-assessment` request. -/
structure Payload where
  high_risk_patients : List RawVal
  fever_patients : List RawVal
  data_quality_issues : List RawVal
deriving DecidableEq, Repr

/-- The payload `submit` builds from the accumulator lists. -/
def submitPayload (r : Report) : Payload :=
  ⟨r.highRisk, r.feverPatients, r.dataIssues⟩

/-- `run` from the source: fetch, classify, and build the submission
payload.  Total by construction: every environment, including one where
pages permanently fail, yields a submitted report. -/
def runModel (env1 env2 : Nat → Nat → AttemptOut) : Payload :=
  submitPayload (analyze (fetchPatients env1 env2))

/-- A record with a valid identifier and no vitals, used as concrete
page content in environments below. -/
def pA : Patient := ⟨.str "A", .nullV, .nullV, .nullV⟩

/-- A remote that answers every attempt of every page with the same
single record: every page succeeds and returns the same patient. -/
def dupEnv : Nat → Nat → AttemptOut := fun _ _ => .ok [pA]

/-- A record that is simultaneously high-risk (bp 4 + temp 2),
febrile (101.2 ≥ 99.6) and a data-quality issue (age unparsable). -/
def pBad : Patient := ⟨.str "X", .str "150/95", .str "101.2", .str "abc"⟩

/-- A remote page behaviour: rate-limited on attempts 0 and 1, success on
attempt 2. -/
def respSucc : Nat → AttemptOut := fun i => if i < 2 then .rate429 else .ok [pA]

/-- A remote page behaviour: rate-limited on every attempt. -/
def respLimited : Nat → AttemptOut := fun _ => .rate429

/-- A remote page behaviour: a non-retryable error on every attempt. -/
def respFatal : Nat → AttemptOut := fun _ => .fatal

section AnalyzeLemmas

/-- The `highRisk` accumulator after one `analyze` iteration. -/
lemma analyzeStep_highRisk (r : Report) (p : Patient) :
    (analyzeStep r p).highRisk =
      r.highRisk ++ (if 4 ≤ totalOf p then [p.patient_id] else []) := by
  unfold analyzeStep
  split_ifs <;> simp

/-- The `feverPatients` accumulator after one `analyze` iteration. -/
lemma analyzeStep_fever (r : Report) (p : Patient) :
    (analyzeStep r p).feverPatients =
      r.feverPatients ++ (if isFever p then [p.patient_id] else []) := by
  unfold analyzeStep
  split_ifs <;> simp_all

/-- The `dataIssues` accumulator after one `analyze` iteration. -/
lemma analyzeStep_issues (r : Report) (p : Patient) :
    (analyzeStep r p).dataIssues =
      r.dataIssues ++ (if hasIssue p then [p.patient_id] else []) := by
  unfold analyzeStep
  split_ifs <;> simp_all

/-- Closed form of the `analyze` fold from an arbitrary accumulator
state. -/
lemma analyze_foldl (ps : List Patient) (r : Report) :
    ps.foldl analyzeStep r =
      ⟨r.highRisk ++ (ps.filter (fun p => decide (4 ≤ totalOf p))).map Patient.patient_id,
       r.feverPatients ++ (ps.filter isFever).map Patient.patient_id,
       r.dataIssues ++ (ps.filter hasIssue).map Patient.patient_id⟩ := by
  induction ps generalizing r with
  | nil => simp
  | cons p ps ih =>
    rw [List.foldl_cons, ih]
    have hh := analyzeStep_highRisk r p
    have hf := analyzeStep_fever r p
    have hi := analyzeStep_issues r p
    rw [List.filter_cons, List.filter_cons, List.filter_cons]
    by_cases h1 : 4 ≤ totalOf p <;> by_cases h2 : isFever p <;>
      by_cases h3 : hasIssue p <;>
      simp [hh, hf, hi, h1, h2, h3]

/-- `analyze` keeps, in record order, one identifier per record matching
each condition. -/
lemma analyze_eq (ps : List Patient) :
    analyze ps =
      ⟨(ps.filter (fun p => decide (4 ≤ totalOf p))).map Patient.patient_id,
       (ps.filter isFever).map Patient.patient_id,
       (ps.filter hasIssue).map Patient.patient_id⟩ := by
  unfold analyze
  rw [analyze_foldl]
  simp

end AnalyzeLemmas

section FetchLemmas

/-- A run of retryable outcomes exhausts the budget: starting at attempt
`a` with `n` budget left, `n` retryable attempts end in failure after
exactly `a + n` attempts. -/
lemma fetchPageGo_all_retry (resp : Nat → AttemptOut) (n : Nat) :
    ∀ a : Nat, (∀ i, i < n → retryable (resp (a + i)) = true) →
      fetchPageGo resp a n = (none, a + n) := by
  induction n with
  | zero => intro a _; simp [fetchPageGo]
  | succ n ih =>
    intro a h
    have h0 : retryable (resp a) = true := by
      have := h 0 (Nat.succ_pos n)
      simpa using this
    have hrest : ∀ i, i < n → retryable (resp (a + 1 + i)) = true := by
      intro i hi
      have := h (i + 1) (by omega)
      have hx : a + (i + 1) = a + 1 + i := by omega
      rwa [hx] at this
    have hrec : fetchPageGo resp (a + 1) n = (none, a + 1 + n) := ih (a + 1) hrest
    cases hr : resp a with
    | ok recs =>
      have he : (validOf recs).isEmpty = true := by
        rw [hr] at h0; simpa [retryable] using h0
      simp only [fetchPageGo, hr, he, if_true]
      rw [hrec]
      simp only [Prod.mk.injEq]
      exact ⟨trivial, by omega⟩
    | rate429 =>
      simp only [fetchPageGo, hr]
      rw [hrec]
      simp only [Prod.mk.injEq]
      exact ⟨trivial, by omega⟩
    | err5xx =>
      simp only [fetchPageGo, hr]
      rw [hrec]
      simp only [Prod.mk.injEq]
      exact ⟨trivial, by omega⟩
    | fatal => rw [hr] at h0; simp [retryable] at h0

/-- A success inside the budget after `m` retryable attempts returns the
valid records using exactly `m + 1` attempts in total. -/
lemma fetchPageGo_success (resp : Nat → AttemptOut) (m : Nat) :
    ∀ a n : Nat, (∀ i, i < m → retryable (resp (a + i)) = true) →
      ∀ recs, resp (a + m) = .ok recs → (validOf recs).isEmpty = false →
        m < n → fetchPageGo resp a n = (some (validOf recs), a + m + 1) := by
  induction m with
  | zero =>
    intro a n _ recs hok hne hmn
    obtain ⟨n', rfl⟩ : ∃ n', n = n' + 1 := ⟨n - 1, by omega⟩
    have hok' : resp a = .ok recs := by simpa using hok
    simp [fetchPageGo, hok', hne]
  | succ m ih =>
    intro a n h recs hok hne hmn
    obtain ⟨n', rfl⟩ : ∃ n', n = n' + 1 := ⟨n - 1, by omega⟩
    have h0 : retryable (resp a) = true := by
      have := h 0 (Nat.succ_pos m)
      simpa using this
    have hrest : ∀ i, i < m → retryable (resp (a + 1 + i)) = true := by
      intro i hi
      have := h (i + 1) (by omega)
      have hx : a + (i + 1) = a + 1 + i := by omega
      rwa [hx] at this
    have hok' : resp (a + 1 + m) = .ok recs := by
      have hx : a + (m + 1) = a + 1 + m := by omega
      rwa [hx] at hok
    have hrec := ih (a + 1) n' hrest recs hok' hne (by omega)
    cases hr : resp a with
    | ok recs0 =>
      have he : (validOf recs0).isEmpty = true := by
        rw [hr] at h0; simpa [retryable] using h0
      simp only [fetchPageGo, hr, he, if_true]
      rw [hrec]
      simp only [Prod.mk.injEq]
      exact ⟨trivial, by omega⟩
    | rate429 =>
      simp only [fetchPageGo, hr]
      rw [hrec]
      simp only [Prod.mk.injEq]
      exact ⟨trivial, by omega⟩
    | err5xx =>
      simp only [fetchPageGo, hr]
      rw [hrec]
      simp only [Prod.mk.injEq]
      exact ⟨trivial, by omega⟩
    | fatal => rw [hr] at h0; simp [retryable] at h0

/-- A non-retryable outcome inside the budget, after `k` retryable
attempts, aborts with exactly `k + 1` attempts made. -/
lemma fetchPageGo_fatal (resp : Nat → AttemptOut) (k : Nat) :
    ∀ a n : Nat, (∀ i, i < k → retryable (resp (a + i)) = true) →
      resp (a + k) = .fatal → k < n →
        fetchPageGo resp a n = (none, a + k + 1) := by
  induction k with
  | zero =>
    intro a n _ hf hkn
    obtain ⟨n', rfl⟩ : ∃ n', n = n' + 1 := ⟨n - 1, by omega⟩
    have hf' : resp a = .fatal := by simpa using hf
    simp [fetchPageGo, hf']
  | succ k ih =>
    intro a n h hf hkn
    obtain ⟨n', rfl⟩ : ∃ n', n = n' + 1 := ⟨n - 1, by omega⟩
    have h0 : retryable (resp a) = true := by
      have := h 0 (Nat.succ_pos k)
      simpa using this
    have hrest : ∀ i, i < k → retryable (resp (a + 1 + i)) = true := by
      intro i hi
      have := h (i + 1) (by omega)
      have hx : a + (i + 1) = a + 1 + i := by omega
      rwa [hx] at this
    have hf' : resp (a + 1 + k) = .fatal := by
      have hx : a + (k + 1) = a + 1 + k := by omega
      rwa [hx] at hf
    have hrec := ih (a + 1) n' hrest hf' (by omega)
    cases hr : resp a with
    | ok recs0 =>
      have he : (validOf recs0).isEmpty = true := by
        rw [hr] at h0; simpa [retryable] using h0
      simp only [fetchPageGo, hr, he, if_true]
      rw [hrec]
      simp only [Prod.mk.injEq]
      exact ⟨trivial, by omega⟩
    | rate429 =>
      simp only [fetchPageGo, hr]
      rw [hrec]
      simp only [Prod.mk.injEq]
      exact ⟨trivial, by omega⟩
    | err5xx =>
      simp only [fetchPageGo, hr]
      rw [hrec]
      simp only [Prod.mk.injEq]
      exact ⟨trivial, by omega⟩
    | fatal => rw [hr] at h0; simp [retryable] at h0

/-- Closed form of the first pass of `fetchPatients` from an arbitrary
accumulator: successes are concatenated in page order and failed page
indices are recorded in page order. -/
lemma firstPass_spec (env1 : Nat → Nat → AttemptOut) (l : List Nat) :
    ∀ (acc : List Patient) (fl : List Nat),
      l.foldl (firstStep env1) (acc, fl) =
        (acc ++ (l.filterMap (fun pg => (fetchPage (env1 pg) firstBudget).1)).join,
         fl ++ l.filter (fun pg => ((fetchPage (env1 pg) firstBudget).1).isNone)) := by
  induction l with
  | nil => intro acc fl; simp
  | cons pg l ih =>
    intro acc fl
    rw [List.foldl_cons]
    cases h : (fetchPage (env1 pg) firstBudget).1 with
    | some recs =>
      have hstep : firstStep env1 (acc, fl) pg = (acc ++ recs, fl) := by
        simp [firstStep, h]
      rw [hstep, ih]
      simp [List.filterMap_cons, List.filter_cons, h]
    | none =>
      have hstep : firstStep env1 (acc, fl) pg = (acc, fl ++ [pg]) := by
        simp [firstStep, h]
      rw [hstep, ih]
      simp [List.filterMap_cons, List.filter_cons, h]

/-- Closed form of the recovery pass of `fetchPatients`: records of the
pages that succeed on re-attempt are appended in failure order; pages
that fail again contribute nothing. -/
lemma recovery_spec (env2 : Nat → Nat → AttemptOut) (l : List Nat) :
    ∀ acc : List Patient,
      l.foldl (recoveryStep env2) acc =
        acc ++ (l.filterMap (fun pg => (fetchPage (env2 pg) recoveryBudget).1)).join := by
  induction l with
  | nil => intro acc; simp
  | cons pg l ih =>
    intro acc
    rw [List.foldl_cons]
    cases h : (fetchPage (env2 pg) recoveryBudget).1 with
    | some recs =>
      have hstep : recoveryStep env2 acc pg = acc ++ recs := by
        simp [recoveryStep, h]
      rw [hstep, ih]
      simp [List.filterMap_cons, h]
    | none =>
      have hstep : recoveryStep env2 acc pg = acc := by
        simp [recoveryStep, h]
      rw [hstep, ih]
      simp [List.filterMap_cons, h]

/-- The final record list delivered downstream: the concatenation of the
valid records of the pages that succeeded in the first pass, in page
order, followed by those of the failed pages that succeeded on recovery,
in original failure order. -/
lemma fetchPatients_eq (env1 env2 : Nat → Nat → AttemptOut) :
    fetchPatients env1 env2 =
      (pagesList.filterMap (fun pg => (fetchPage (env1 pg) firstBudget).1)).join
        ++ ((pagesList.filter
              (fun pg => ((fetchPage (env1 pg) firstBudget).1).isNone)).filterMap
            (fun pg => (fetchPage (env2 pg) recoveryBudget).1)).join := by
  unfold fetchPatients
  rw [firstPass_spec, recovery_spec]
  simp

end FetchLemmas

section SplitLemmas

/-- `split` always returns at least one segment. -/
lemma splitSlash_ne_nil (cs : List Char) : splitSlash cs ≠ [] := by
  induction cs with
  | nil => simp [splitSlash]
  | cons c cs ih =>
    by_cases hc : c = '/'
    · simp [splitSlash, hc]
    · cases h : splitSlash cs with
      | nil => exact absurd h ih
      | cons p ps => simp [splitSlash, hc, h]

/-- Splitting a string whose first slash is explicit: the slash-free part
before it is the first segment. -/
lemma splitSlash_append (a b : List Char) (ha : ∀ c ∈ a, c ≠ '/') :
    splitSlash (a ++ '/' :: b) = a :: splitSlash b := by
  induction a with
  | nil => simp [splitSlash]
  | cons c a ih =>
    have hc : c ≠ '/' := ha c (List.mem_cons_self c a)
    have ih' := ih (fun x hx => ha x (List.mem_cons_of_mem c hx))
    rw [List.cons_append, splitSlash, if_neg hc, ih']

/-- The first segment of a split is the run of characters before the
first slash. -/
lemma splitSlash_head (b : List Char) :
    (splitSlash b).getD 0 [] = b.takeWhile (fun c => c != '/') := by
  induction b with
  | nil => simp [splitSlash]
  | cons c b ih =>
    by_cases hc : c = '/'
    · simp [splitSlash, hc, List.takeWhile_cons]
    · cases h : splitSlash b with
      | nil => exact absurd h (splitSlash_ne_nil b)
      | cons p ps =>
        rw [h] at ih
        simp only [splitSlash, hc, if_false, h, List.takeWhile_cons]
        simp only [bne_iff_ne, ne_eq, hc, not_false_eq_true, if_true]
        simpa using ih

end SplitLemmas

section ParserLemmas

/-- A list with no decimal digit yields an empty digit run. -/
lemma takeDigits_no (cs : List Char) (h : ∀ c ∈ cs, c.isDigit = false) :
    takeDigits cs = ([], cs) := by
  cases cs with
  | nil => rfl
  | cons c cs => simp [takeDigits, h c (List.mem_cons_self c cs)]

/-- The rest after the optional sign is made of characters of the input. -/
lemma takeSign_snd_subset (cs : List Char) : ∀ c ∈ (takeSign cs).2, c ∈ cs := by
  unfold takeSign
  split_ifs <;> intro c hc
  · exact (List.tail_sublist cs).subset hc
  · exact (List.tail_sublist cs).subset hc
  · exact hc

/-- A list whose characters are all distinct from `I` cannot start the
literal `Infinity`. -/
lemma isInfinityLit_eq_false (cs : List Char) (h : ∀ c ∈ cs, c ≠ 'I') :
    isInfinityLit cs = false := by
  cases cs with
  | nil => rfl
  | cons c cs =>
    have hc : c ≠ 'I' := h c (List.mem_cons_self c cs)
    simp [isInfinityLit, List.take_succ_cons, hc]

/-- A list with no digit cannot start with the `0x` hex lead. -/
lemma hexLead_eq_false (cs : List Char) (h : ∀ c ∈ cs, c.isDigit = false) :
    hexLead cs = false := by
  cases cs with
  | nil => rfl
  | cons c cs =>
    have hc : c ≠ '0' := by
      intro he
      have := h c (List.mem_cons_self c cs)
      rw [he] at this
      simp [Char.isDigit] at this
    simp [hexLead, List.take_succ_cons, hc]

/-- `parseFloat` is `NaN` on any string with no decimal digit and no `I`
(so in particular on every alphabetic non-`Infinity` string). -/
lemma parseFloatChars_none (cs : List Char)
    (h : ∀ c ∈ cs, c.isDigit = false ∧ c ≠ 'I') : parseFloatChars cs = none := by
  have h1 : ∀ c ∈ cs.dropWhile isJsWs, c.isDigit = false ∧ c ≠ 'I' :=
    fun c hc => h c ((List.dropWhile_sublist isJsWs).subset hc)
  have h2 : ∀ c ∈ (takeSign (cs.dropWhile isJsWs)).2, c.isDigit = false ∧ c ≠ 'I' :=
    fun c hc => h1 c (takeSign_snd_subset _ c hc)
  have hInf : isInfinityLit (takeSign (cs.dropWhile isJsWs)).2 = false :=
    isInfinityLit_eq_false _ (fun c hc => (h2 c hc).2)
  have hTd : takeDigits (takeSign (cs.dropWhile isJsWs)).2 =
      ([], (takeSign (cs.dropWhile isJsWs)).2) :=
    takeDigits_no _ (fun c hc => (h2 c hc).1)
  by_cases hdot : ((takeSign (cs.dropWhile isJsWs)).2).head? = some '.'
  · have htail : ∀ c ∈ ((takeSign (cs.dropWhile isJsWs)).2).tail, c.isDigit = false :=
      fun c hc => (h2 c ((List.tail_sublist _).subset hc)).1
    simp [parseFloatChars, hInf, hTd, hdot, takeDigits_no _ htail]
  · simp [parseFloatChars, hInf, hTd, hdot]

/-- `parseInt` is `NaN` on any string with no decimal digit. -/
lemma parseIntChars_none (cs : List Char)
    (h : ∀ c ∈ cs, c.isDigit = false) : parseIntChars cs = none := by
  have h1 : ∀ c ∈ cs.dropWhile isJsWs, c.isDigit = false :=
    fun c hc => h c ((List.dropWhile_sublist isJsWs).subset hc)
  have h2 : ∀ c ∈ (takeSign (cs.dropWhile isJsWs)).2, c.isDigit = false :=
    fun c hc => h1 c (takeSign_snd_subset _ c hc)
  have hHex : hexLead (takeSign (cs.dropWhile isJsWs)).2 = false :=
    hexLead_eq_false _ h2
  have hTd : takeDigits (takeSign (cs.dropWhile isJsWs)).2 =
      ([], (takeSign (cs.dropWhile isJsWs)).2) :=
    takeDigits_no _ h2
  simp [parseIntChars, hHex, hTd]

end ParserLemmas

/-- C2: for every collection, the high-risk output list contains exactly
the identifiers of the records whose total risk score is at least 4, in
record order; the total is the sum of the blood-pressure, temperature and
age sub-scores, and each sub-score is 0 when its field failed to parse. -/
theorem claim2_total_and_highRisk :
    (∀ ps : List Patient,
      (analyze ps).highRisk =
        (ps.filter (fun p => decide (4 ≤ totalOf p))).map Patient.patient_id)
    ∧ (∀ p : Patient,
        totalOf p = bpScore (sysOf p) (diaOf p) + tempScore (tOf p) + ageScore (aOf p))
    ∧ tempScore none = 0 ∧ ageScore none = 0
    ∧ (∀ x, bpScore none x = 0) ∧ (∀ x, bpScore x none = 0) := by
  refine ⟨fun ps => ?_, fun p => rfl, rfl, rfl, fun x => ?_, fun x => ?_⟩
  · rw [analyze_eq]
  · cases x <;> rfl
  · cases x <;> rfl

/-- C4: for valid parsed systolic and diastolic values, `bpScore` agrees
with the specification's table evaluated top-to-bottom with first match
winning, and it is 0 whenever either side is the invalid sentinel. -/
theorem claim4_bp_table_refines_spec :
    (∀ s d : Nat, bpScore (some s) (some d) = bpSpecTable s d)
    ∧ (∀ x, bpScore none x = 0) ∧ (∀ x, bpScore x none = 0) := by
  refine ⟨fun s d => ?_, fun x => by cases x <;> rfl, fun x => by cases x <;> rfl⟩
  simp only [bpScore, bpSpecTable]

/-- C6: for every collection, the data-quality-issue output list contains
exactly the identifiers of the records for which at least one of the four
parsed fields (systolic, diastolic, temperature, age) is the invalid
sentinel, in record order. -/
theorem claim6_issue_list :
    (∀ ps : List Patient,
      (analyze ps).dataIssues = (ps.filter hasIssue).map Patient.patient_id)
    ∧ (∀ p : Patient,
        hasIssue p =
          ((sysOf p).isNone || (diaOf p).isNone || (tOf p).isNone || (aOf p).isNone)) :=
  ⟨fun ps => by rw [analyze_eq], fun p => rfl⟩

/-- C7: for every collection, the fever output list contains exactly the
identifiers of the records whose temperature parsed successfully to a
value at least 99.6, in record order. -/
theorem claim7_fever_list :
    (∀ ps : List Patient,
      (analyze ps).feverPatients = (ps.filter isFever).map Patient.patient_id)
    ∧ (∀ p : Patient, isFever p = true ↔ ∃ v, tOf p = some v ∧ v.geQ 99.6 = true) := by
  refine ⟨fun ps => by rw [analyze_eq], fun p => ?_⟩
  cases h : tOf p with
  | none => simp [isFever, h]
  | some v => simp [isFever, h]

/-- The source's digit test agrees with the specification's wording of a
pure digit sequence. -/
lemma digitTest_eq_digitSeqVal (cs : List Char) : digitTest cs = digitSeqVal cs := by
  unfold digitTest digitSeqVal
  split_ifs <;> simp_all [List.all_eq_true, List.isEmpty_iff]

/-- C3 counterexample: `"120/80/90"` contains more than one slash, so the
claim demands `(invalid, invalid)`, but the code parses the first two
segments and returns `(120, 80)`. -/
theorem claim3_counterexample :
    parseBloodPressure (.str "120/80/90") = (some 120, some 80)
    ∧ ((some 120, some 80) : Option Nat × Option Nat) ≠ (none, none) := by
  decide

/-- C3 amended: `parseBloodPressure` returns `(invalid, invalid)` for
every input that is not a non-empty string containing at least one
slash; for a string with at least one slash it splits on `/` and parses
only the first two segments, each independently to its integer value if
it is a pure digit sequence and to invalid otherwise; segments after the
second are ignored. -/
theorem claim3_amended :
    (∀ v : RawVal, (∀ s, v ≠ .str s) → parseBloodPressure v = (none, none))
    ∧ parseBloodPressure (.str "") = (none, none)
    ∧ (∀ s : String, s.data.contains '/' = false →
        parseBloodPressure (.str s) = (none, none))
    ∧ (∀ a b : List Char, (∀ c ∈ a, c ≠ '/') →
        parseBloodPressure (.str ⟨a ++ '/' :: b⟩) =
          (digitSeqVal a, digitSeqVal (b.takeWhile (fun c => c != '/')))) := by
  refine ⟨fun v hv => ?_, rfl, fun s hs => ?_, fun a b ha => ?_⟩
  · cases v with
    | str s => exact absurd rfl (hv s)
    | num q => rfl
    | nullV => rfl
    | undef => rfl
    | boolV b => rfl
    | obj => rfl
  · have hnot : '/' ∉ s.data := by simpa using hs
    simp [parseBloodPressure, hs]
    intro _ hmem
    exact absurd hmem hnot
  · have h1 : (a ++ '/' :: b).isEmpty = false := by simp
    have h2 : (a ++ '/' :: b).contains '/' = true := by simp
    simp only [parseBloodPressure, h1, h2, Bool.not_true, if_false,
      splitSlash_append a b ha, List.getD_cons_zero, List.getD_cons_succ,
      splitSlash_head, digitTest_eq_digitSeqVal, Bool.false_eq_true]

/-- Witness for the amended C3 at concrete inputs: a non-string, a
slash-free string, and a two-slash string whose first two segments are
digit runs. -/
theorem claim3_amended_witness :
    parseBloodPressure .nullV = (none, none)
    ∧ parseBloodPressure (.str "abc") = (none, none)
    ∧ parseBloodPressure (.str ⟨['1', '2', '0'] ++ '/' :: ['8', '0', '/', '9', '9']⟩) =
        (some 120, some 80) := by
  refine ⟨claim3_amended.1 .nullV (fun s h => by cases h),
          claim3_amended.2.2.1 "abc" (by decide), ?_⟩
  have h := claim3_amended.2.2.2 ['1', '2', '0'] ['8', '0', '/', '9', '9'] (by decide)
  rw [h]
  decide

/-- Two records matching a condition at distinct positions contribute two
entries to the corresponding filtered identifier list. -/
lemma count_two_of_decomp (f : Patient → Bool) (ps₁ ps₂ ps₃ : List Patient)
    (p q : Patient) (hid : p.patient_id = q.patient_id)
    (hp : f p = true) (hq : f q = true) :
    2 ≤ (((ps₁ ++ p :: (ps₂ ++ q :: ps₃)).filter f).map Patient.patient_id).count
          p.patient_id := by
  simp [List.filter_append, List.filter_cons, hp, hq, List.map_append,
    List.count_append, List.count_cons, hid]
  omega

/-- C10: the classifier appends one entry per record and never
deduplicates an output list: two distinct records sharing a `patient_id`
that both satisfy the same classification condition put that identifier
into the corresponding list at least twice. -/
theorem claim10_no_dedup_in_lists (ps₁ ps₂ ps₃ : List Patient) (p q : Patient)
    (hid : p.patient_id = q.patient_id) :
    (4 ≤ totalOf p → 4 ≤ totalOf q →
      2 ≤ ((analyze (ps₁ ++ p :: (ps₂ ++ q :: ps₃))).highRisk).count p.patient_id)
    ∧ (isFever p = true → isFever q = true →
      2 ≤ ((analyze (ps₁ ++ p :: (ps₂ ++ q :: ps₃))).feverPatients).count p.patient_id)
    ∧ (hasIssue p = true → hasIssue q = true →
      2 ≤ ((analyze (ps₁ ++ p :: (ps₂ ++ q :: ps₃))).dataIssues).count p.patient_id) := by
  refine ⟨fun hp hq => ?_, fun hp hq => ?_, fun hp hq => ?_⟩
  · rw [analyze_eq]
    exact count_two_of_decomp _ ps₁ ps₂ ps₃ p q hid (by simpa using hp) (by simpa using hq)
  · rw [analyze_eq]
    exact count_two_of_decomp _ ps₁ ps₂ ps₃ p q hid hp hq
  · rw [analyze_eq]
    exact count_two_of_decomp _ ps₁ ps₂ ps₃ p q hid hp hq

/-- Witness for C10: two copies of a record that is simultaneously
high-risk, febrile and a data-quality issue yield its identifier twice in
each output list. -/
theorem claim10_witness :
    2 ≤ ((analyze ([] ++ pBad :: ([] ++ pBad :: []))).highRisk).count pBad.patient_id
    ∧ 2 ≤ ((analyze ([] ++ pBad :: ([] ++ pBad :: []))).feverPatients).count pBad.patient_id
    ∧ 2 ≤ ((analyze ([] ++ pBad :: ([] ++ pBad :: []))).dataIssues).count pBad.patient_id := by
  have h := claim10_no_dedup_in_lists [] [] [] pBad pBad rfl
  exact ⟨h.1 (by with_unfolding_all decide) (by with_unfolding_all decide),
         h.2.1 (by with_unfolding_all decide) (by with_unfolding_all decide),
         h.2.2 (by with_unfolding_all decide) (by with_unfolding_all decide)⟩

/-- C5: with retry budget `b`, a rate-limited remote that succeeds on the
last allowed attempt makes the fetch succeed with exactly `b` attempts;
a remote that is retryable on every attempt exhausts the budget and
fails after exactly `b` attempts; and a non-retryable error inside the
budget aborts at once, with no further attempts. -/
theorem claim5_retry_semantics (b : Nat) (hb : 1 ≤ b) (resp : Nat → AttemptOut) :
    ((∀ i, i < b - 1 → resp i = .rate429) →
      ∀ recs, resp (b - 1) = .ok recs → (validOf recs).isEmpty = false →
        fetchPage resp b = (some (validOf recs), b))
    ∧ ((∀ i, i < b → retryable (resp i) = true) → fetchPage resp b = (none, b))
    ∧ (∀ k, k < b → (∀ i, i < k → retryable (resp i) = true) → resp k = .fatal →
        fetchPage resp b = (none, k + 1)) := by
  refine ⟨fun h429 recs hok hne => ?_, fun hall => ?_, fun k hk hr hf => ?_⟩
  · have h : ∀ i, i < b - 1 → retryable (resp (0 + i)) = true := by
      intro i hi
      rw [Nat.zero_add, h429 i hi]
      rfl
    have hok0 : resp (0 + (b - 1)) = .ok recs := by simpa using hok
    have hres := fetchPageGo_success resp (b - 1) 0 b h recs hok0 hne (by omega)
    have hb' : 0 + (b - 1) + 1 = b := by omega
    rw [hb'] at hres
    rw [fetchPage]
    exact hres
  · have h : ∀ i, i < b → retryable (resp (0 + i)) = true := by
      intro i hi; simpa using hall i hi
    have hres := fetchPageGo_all_retry resp b 0 h
    rw [Nat.zero_add] at hres
    rw [fetchPage]
    exact hres
  · have h : ∀ i, i < k → retryable (resp (0 + i)) = true := by
      intro i hi; simpa using hr i hi
    have hf0 : resp (0 + k) = .fatal := by simpa using hf
    have hres := fetchPageGo_fatal resp k 0 b h hf0 hk
    rw [Nat.zero_add] at hres
    rw [fetchPage]
    exact hres

/-- Witness for C5 with budget 3: two rate limits then a success, a
permanently rate-limited page, and an immediately fatal page. -/
theorem claim5_witness :
    fetchPage respSucc 3 = (some [pA], 3)
    ∧ fetchPage respLimited 3 = (none, 3)
    ∧ fetchPage respFatal 3 = (none, 1) := by
  refine ⟨?_, ?_, ?_⟩
  · have h := (claim5_retry_semantics 3 (by decide) respSucc).1
      (fun i hi => by unfold respSucc; rw [if_pos (by omega : i < 2)]) [pA]
      (by decide) (by decide)
    rw [h]
    decide
  · exact (claim5_retry_semantics 3 (by decide) respLimited).2.1 (fun i hi => rfl)
  · exact (claim5_retry_semantics 3 (by decide) respFatal).2.2 0 (by decide)
      (fun i hi => absurd hi (Nat.not_lt_zero i)) rfl

/-- C1 counterexample: a remote on which every page succeeds and returns
the same patient makes the final list carry ten records with the same
`patient_id` — no deduplication happens and later occurrences are kept. -/
theorem claim1_counterexample :
    ¬ ((fetchPatients dupEnv dupEnv).map Patient.patient_id).Nodup := by
  decide

/-- C1 amended: the final record list is the concatenation of the valid
records of every successfully fetched page (first pass in page order,
then recovered pages in original failure order); no deduplication by
`patient_id` is performed, so the number of records carrying a given
identifier is the sum of its occurrences over all successful pages. -/
theorem claim1_amended (env1 env2 : Nat → Nat → AttemptOut) (idv : RawVal) :
    (fetchPatients env1 env2).countP (fun p => p.patient_id == idv)
      = ((pagesList.filterMap (fun pg => (fetchPage (env1 pg) firstBudget).1)).map
          (fun recs => recs.countP (fun p => p.patient_id == idv))).sum
        + (((pagesList.filter
              (fun pg => ((fetchPage (env1 pg) firstBudget).1).isNone)).filterMap
            (fun pg => (fetchPage (env2 pg) recoveryBudget).1)).map
          (fun recs => recs.countP (fun p => p.patient_id == idv))).sum := by
  rw [fetchPatients_eq, List.countP_append, List.countP_join, List.countP_join]

/-- C8: the temperature and age parsers degrade to the invalid sentinel
on every value with no numeric interpretation: any string with no digit
and no `I` (so every plain alphabetic or empty string), and the
stringifications of `null`, plain objects and `undefined`. -/
theorem claim8_parsers_fail_soft :
    (∀ s : String, (∀ c ∈ s.data, c.isDigit = false ∧ c ≠ 'I') →
        parseTemperature (.str s) = none ∧ parseAge (.str s) = none)
    ∧ parseTemperature .nullV = none ∧ parseAge .nullV = none
    ∧ parseTemperature .obj = none ∧ parseAge .obj = none
    ∧ parseTemperature .undef = none ∧ parseAge .undef = none := by
  refine ⟨fun s h => ⟨?_, ?_⟩, rfl, rfl, rfl, rfl, rfl, rfl⟩
  · exact parseFloatChars_none s.data h
  · exact parseIntChars_none s.data (fun c hc => (h c hc).1)

/-- Witness for C8 at the concrete non-numeric string `"abc"`. -/
theorem claim8_witness :
    parseTemperature (.str "abc") = none ∧ parseAge (.str "abc") = none :=
  claim8_parsers_fail_soft.1 "abc" (by decide)

/-- C9: the pages that fail the first pass are collected in original page
order; the recovery pass re-attempts exactly those pages with the larger
budget 8 (versus the baseline 5) in that order, dropping the pages that
still fail; and the run always reaches classification and submission
with whatever records were collected, for every remote behaviour. -/
theorem claim9_recovery_and_no_abort (env1 env2 : Nat → Nat → AttemptOut) :
    (pagesList.foldl (firstStep env1) ([], [])).2
        = pagesList.filter (fun pg => ((fetchPage (env1 pg) firstBudget).1).isNone)
    ∧ fetchPatients env1 env2
        = (pagesList.filterMap (fun pg => (fetchPage (env1 pg) firstBudget).1)).join
          ++ ((pagesList.filter
                (fun pg => ((fetchPage (env1 pg) firstBudget).1).isNone)).filterMap
              (fun pg => (fetchPage (env2 pg) recoveryBudget).1)).join
    ∧ firstBudget < recoveryBudget
    ∧ runModel env1 env2 = submitPayload (analyze (fetchPatients env1 env2)) := by
  refine ⟨?_, fetchPatients_eq env1 env2, by decide, rfl⟩
  rw [firstPass_spec]
  simp
